import Mathlib

/-!
Verification of the mpserver session-cache protocol (matrix-profiles repository).

The Go source is shallowly embedded: each HTTP handler becomes a pure Lean
function from its parsed inputs and the session-cache state to a response
(an `Except` of the error envelope) and, where the handler writes the cache,
the new cache state.  Float64 arithmetic is idealised as `ℚ`.  Calls into the
external go-matrixprofile library (the ProfileEngine collaborator of the spec)
are either abstract function parameters of the handler or, where a claim
depends on their behaviour, modelled from the spec with the model's doc
comment saying so.
-/

namespace MPServer

/-- Error envelope of the server: `RespError` in the source, serialised as
`{error, cache_expired}`.  Go's zero value for `CacheExpired` is `false`. -/
structure RespError where
  Error : String
  CacheExpired : Bool
  deriving DecidableEq, Repr

/-- Annotation-vector kinds: the constants `DefaultAV`, `ComplexityAV`,
`MeanStdAV`, `ClippingAV` of the go-matrixprofile library that the `getMP`
switch assigns to `mp.AV`. -/
inductive AVKind where
  | default
  | complexity
  | meanstd
  | clipping
  deriving DecidableEq, Repr

/-- The cached artifact: go-matrixprofile's `MatrixProfile` value stored in the
session under key "mp" (series `A`, window `M`, profile distances `MP`, profile
indices `Idx`, active annotation vector `AV`). -/
structure MatrixProfile where
  A : List ℚ
  M : ℕ
  MP : List ℚ
  Idx : List ℕ
  AV : AVKind
  deriving DecidableEq, Repr

/-- One motif group of the engine's `TopKMotifs` result
(go-matrixprofile `MotifGroup`: `MinDist float64`, `Idx []int`). -/
structure MotifGroup where
  MinDist : ℚ
  Idx : List ℕ
  deriving DecidableEq, Repr

/-- Success payload of `topKMotifs` (`Motif` in the source). -/
structure Motif where
  Groups : List MotifGroup
  Series : List (List (List ℚ))
  deriving DecidableEq, Repr

/-- Success payload of `topKDiscords` (`Discord` in the source). -/
structure Discord where
  Groups : List ℕ
  Series : List (List ℚ)
  deriving DecidableEq, Repr

/-- Success payload of `calculateMP` (`Segment` in the source). -/
structure Segment where
  CAC : List ℚ
  deriving DecidableEq, Repr

/-- Success payload of `getMP` (`MP` in the source: annotation vector and
adjusted matrix profile). -/
structure MPPayload where
  AV : List ℚ
  AdjustedMP : List ℚ
  deriving DecidableEq, Repr

/-- `smooth` from the source: non-causal averaging of neighbouring points.
For each position `i` the window is `[i - m/2, i + m/2]` clipped to the slice
bounds (`s := max 0 (i - m/2)`, `e := min (len) (i + m/2 + 1)` in the Go code;
`ℕ` subtraction realises the lower clip), and the output at `i` is the window
sum divided by the window size `e - s`. -/
def smooth (data : List ℚ) (m : ℕ) : List ℚ :=
  (List.range data.length).map (fun i =>
    let s := i - m / 2
    let e := min (i + m / 2 + 1) data.length
    ((data.drop s).take (e - s)).sum / ((e - s : ℕ) : ℚ))

/-- Modelled from the spec: `ArtifactCache.put` — the redis session store's
`Save` with `SetMaxLength maxRedisBlobSize` (external redistore library) —
rejects a write whose serialized size (`encSize`) exceeds the configured
maximum, leaving the session's slot untouched; on success it replaces the
slot with the new artifact.  The boolean is `Save`'s success/failure. -/
def sessionPut (encSize : MatrixProfile → ℕ) (maxSize : ℕ)
    (cache : Option MatrixProfile) (a : MatrixProfile) :
    Option MatrixProfile × Bool :=
  if encSize a > maxSize then (cache, false) else (some a, true)

/-- `mp.A[idx : idx+m]`: the subsequence window the handlers slice out of the
artifact's underlying series before z-normalizing it. -/
def extractWindow (a : List ℚ) (idx m : ℕ) : List ℚ :=
  (a.drop idx).take m

/-- The handlers' presentation loops: apply `f` to each element in order and
abort with the first error, exactly as the Go `for` loops `return` on the
first failed `ZNormalize` call. -/
def mapExcept {α β : Type} (f : α → Except String β) : List α → Except String (List β)
  | [] => .ok []
  | x :: xs =>
    match f x with
    | .error e => .error e
    | .ok y =>
      match mapExcept f xs with
      | .error e => .error e
      | .ok ys => .ok (y :: ys)

/-- The `switch avname` of `getMP`: the fixed enumerated set of recognized
annotation-vector names.  `"default"` and `""` share a case. -/
def resolveAVName : String → Option AVKind
  | "default" => some AVKind.default
  | "" => some AVKind.default
  | "complexity" => some AVKind.complexity
  | "meanstd" => some AVKind.meanstd
  | "clipping" => some AVKind.clipping
  | _ => none

/-- The `topKMotifs` handler after transport decoding: `kq`/`rq` are the
results of `strconv.Atoi(c.Query("k"))` and `strconv.ParseFloat(c.Query("r"))`,
`cache` is `session.Get("mp")`, `engine` is the external `mp.TopKMotifs` and
`znorm` the external `matrixprofile.ZNormalize`.  The handler never writes the
session. -/
def topKMotifsHandler
    (engine : MatrixProfile → ℤ → ℚ → Except String (List MotifGroup))
    (znorm : List ℚ → Except String (List ℚ))
    (kq : Except String ℤ) (rq : Except String ℚ)
    (cache : Option MatrixProfile) : Except RespError Motif :=
  match kq with
  | .error e => .error ⟨e, false⟩
  | .ok k =>
    match rq with
    | .error e => .error ⟨e, false⟩
    | .ok r =>
      match cache with
      | none => .error ⟨"matrix profile is not initialized to compute motifs", true⟩
      | some mp =>
        match engine mp k r with
        | .error e => .error ⟨e, false⟩
        | .ok motifGroups =>
          match mapExcept
              (fun g => mapExcept (fun midx => znorm (extractWindow mp.A midx mp.M)) g.Idx)
              motifGroups with
          | .error e => .error ⟨e, false⟩
          | .ok series => .ok ⟨motifGroups, series⟩

/-- The `topKDiscords` handler after transport decoding.  The source fixes the
engine's exclusion-zone argument to `mp.M/2` (`mp.TopKDiscords(k, mp.M/2)`),
and maps an engine failure to the envelope `{"failed to compute discords",
cache_expired:false}`. -/
def topKDiscordsHandler
    (engine : MatrixProfile → ℤ → ℕ → Except String (List ℕ))
    (znorm : List ℚ → Except String (List ℚ))
    (kq : Except String ℤ)
    (cache : Option MatrixProfile) : Except RespError Discord :=
  match kq with
  | .error e => .error ⟨e, false⟩
  | .ok k =>
    match cache with
    | none => .error ⟨"matrix profile is not initialized to compute discords", true⟩
    | some mp =>
      match engine mp k (mp.M / 2) with
      | .error _ => .error ⟨"failed to compute discords", false⟩
      | .ok discords =>
        match mapExcept (fun didx => znorm (extractWindow mp.A didx mp.M)) discords with
        | .error e => .error ⟨e, false⟩
        | .ok series => .ok ⟨discords, series⟩

/-- The `getMP` handler (the spec's `setAnnotationVector`): `bindName` is the
result of `c.BindJSON` for the `name` field, `gav`/`aav` are the external
`mp.GetAV`/`mp.ApplyAV`.  On a recognized name the handler assigns `mp.AV`,
saves the session (`sessionPut`, with `Save`'s error discarded by the source),
and only then computes `GetAV`/`ApplyAV`.  Returns the response and the cache
state after the request. -/
def getMPHandler
    (gav : MatrixProfile → Except String (List ℚ))
    (aav : MatrixProfile → List ℚ → Except String (List ℚ))
    (encSize : MatrixProfile → ℕ) (maxSize : ℕ)
    (bindName : Except String String)
    (cache : Option MatrixProfile) :
    Except RespError MPPayload × Option MatrixProfile :=
  match bindName with
  | .error _ =>
    (.error ⟨"failed to unmarshall POST parameters with field name", false⟩, cache)
  | .ok avname =>
    match cache with
    | none => (.error ⟨"matrix profile is not initialized", true⟩, cache)
    | some mp =>
      match resolveAVName avname with
      | none => (.error ⟨"invalid annotation vector name " ++ avname, false⟩, cache)
      | some kind =>
        let mp1 := { mp with AV := kind }
        let cache1 := (sessionPut encSize maxSize cache mp1).1
        match gav mp1 with
        | .error e => (.error ⟨e, false⟩, cache1)
        | .ok av =>
          match aav mp1 av with
          | .error e => (.error ⟨e, false⟩, cache1)
          | .ok adjustedMP => (.ok ⟨av, adjustedMP⟩, cache1)

/-- Modelled from the spec: `matrixprofile.New` — the external ProfileEngine
constructor — validates that `windowLength` is a positive integer strictly
less than the series length and otherwise fails with an invalid-parameter
error; on success it builds the artifact for that series and window. -/
def mpNew (data : List ℚ) (m : ℤ) : Except String MatrixProfile :=
  if 0 < m ∧ m < (data.length : ℤ) then
    .ok { A := data, M := m.toNat, MP := [], Idx := [], AV := AVKind.default }
  else
    .error "invalid window length"

/-- The `calculateMP` handler: `bindM` is the result of `c.BindJSON` for `m`,
`fetched` the result of `fetchData()`, `stomp` the external `mp.Stomp`
(returning the artifact with the profile filled in) and `segment` the
external `mp.Segment` producing the corrected arc curve.  The source ignores
the error returned by `session.Save()`, so the response does not depend on
`sessionPut`'s outcome. -/
def calculateMPHandler
    (stomp : MatrixProfile → Except String MatrixProfile)
    (segment : MatrixProfile → List ℚ)
    (encSize : MatrixProfile → ℕ) (maxSize : ℕ)
    (bindM : Except String ℤ)
    (fetched : Except String (List ℚ))
    (cache : Option MatrixProfile) :
    Except RespError Segment × Option MatrixProfile :=
  match bindM with
  | .error e => (.error ⟨e, false⟩, cache)
  | .ok m =>
    match fetched with
    | .error e => (.error ⟨e, false⟩, cache)
    | .ok data =>
      match mpNew data m with
      | .error e => (.error ⟨e, false⟩, cache)
      | .ok mp0 =>
        match stomp mp0 with
        | .error e => (.error ⟨e, false⟩, cache)
        | .ok mp1 =>
          let cac := segment mp1
          let cache1 := (sessionPut encSize maxSize cache mp1).1
          (.ok ⟨cac⟩, cache1)

/-- Whether a handler outcome is a failure envelope carrying
`cache_expired = true`. -/
def respCacheExpired {α : Type} : Except RespError α → Bool
  | .error e => e.CacheExpired
  | .ok _ => false

/-! Concrete collaborator instances used to exercise the handlers on closed
inputs (witnesses and counterexamples). -/

/-- A z-normalizer that succeeds on every window, returning it unchanged. -/
def znormId : List ℚ → Except String (List ℚ) := fun xs => .ok xs

/-- A motif engine returning a fixed group list. -/
def motifEngineConst (gs : List MotifGroup) :
    MatrixProfile → ℤ → ℚ → Except String (List MotifGroup) :=
  fun _ _ _ => .ok gs

/-- A discord engine returning a fixed index list. -/
def discordEngineConst (ds : List ℕ) :
    MatrixProfile → ℤ → ℕ → Except String (List ℕ) :=
  fun _ _ _ => .ok ds

/-- A `GetAV` returning a fixed annotation vector. -/
def gavConst (av : List ℚ) : MatrixProfile → Except String (List ℚ) :=
  fun _ => .ok av

/-- A `GetAV` that always fails. -/
def gavErr (e : String) : MatrixProfile → Except String (List ℚ) :=
  fun _ => .error e

/-- An `ApplyAV` returning a fixed adjusted profile. -/
def aavConst (adj : List ℚ) : MatrixProfile → List ℚ → Except String (List ℚ) :=
  fun _ _ => .ok adj

/-- A serialized-size estimate that is the same for every artifact. -/
def encSizeConst (n : ℕ) : MatrixProfile → ℕ := fun _ => n

/-- A `Stomp` that returns the artifact unchanged. -/
def stompId : MatrixProfile → Except String MatrixProfile := fun mp => .ok mp

/-- A `Segment` returning the artifact's profile as the corrected arc curve. -/
def segmentMP : MatrixProfile → List ℚ := fun mp => mp.MP

/-- A small concrete artifact. -/
def mpW : MatrixProfile :=
  { A := [0, 1, 2, 3, 4, 5], M := 2, MP := [1, 5, 3, 2], Idx := [0, 0, 0, 0],
    AV := AVKind.default }

/-- The artifact `mpNew [0, 1, 2, 3] 2` builds (for the C2 scenarios). -/
def mpC2 : MatrixProfile :=
  { A := [0, 1, 2, 3], M := 2, MP := [], Idx := [], AV := AVKind.default }

end MPServer

namespace MPServer

/-- C1 (amended): for each derived-query handler, the failure envelope carries
`cache_expired = true` exactly when the request parameters parsed successfully
and the session's cached artifact is absent; in particular `cache_expired =
true` never arises with an artifact present, and parsing, engine and
normalization failures all carry `cache_expired = false`.  (The unamended
claim fails because a parameter-parsing failure is reported with
`cache_expired = false` even when the artifact is absent.) -/
theorem cacheExpired_iff_parsed_and_absent
    (engM : MatrixProfile → ℤ → ℚ → Except String (List MotifGroup))
    (engD : MatrixProfile → ℤ → ℕ → Except String (List ℕ))
    (znorm : List ℚ → Except String (List ℚ))
    (gav : MatrixProfile → Except String (List ℚ))
    (aav : MatrixProfile → List ℚ → Except String (List ℚ))
    (encSize : MatrixProfile → ℕ) (maxSize : ℕ)
    (kqM kqD : Except String ℤ) (rq : Except String ℚ)
    (bindName : Except String String)
    (cacheM cacheD cacheG : Option MatrixProfile) :
    (respCacheExpired (topKMotifsHandler engM znorm kqM rq cacheM) = true ↔
      (∃ k, kqM = .ok k) ∧ (∃ r, rq = .ok r) ∧ cacheM = none) ∧
    (respCacheExpired (topKDiscordsHandler engD znorm kqD cacheD) = true ↔
      (∃ k, kqD = .ok k) ∧ cacheD = none) ∧
    (respCacheExpired (getMPHandler gav aav encSize maxSize bindName cacheG).1 = true ↔
      (∃ n, bindName = .ok n) ∧ cacheG = none) := by
  refine ⟨?_, ?_, ?_⟩
  · cases kqM with
    | error e => simp [topKMotifsHandler, respCacheExpired]
    | ok k =>
      cases rq with
      | error e => simp [topKMotifsHandler, respCacheExpired]
      | ok r =>
        cases cacheM with
        | none => simp [topKMotifsHandler, respCacheExpired]
        | some mp =>
          simp only [topKMotifsHandler]
          cases hE : engM mp k r with
          | error e => simp [respCacheExpired]
          | ok motifGroups =>
            cases hB : mapExcept
                (fun g => mapExcept (fun midx => znorm (extractWindow mp.A midx mp.M)) g.Idx)
                motifGroups with
            | error e => simp [respCacheExpired, hB]
            | ok series => simp [respCacheExpired, hB]
  · cases kqD with
    | error e => simp [topKDiscordsHandler, respCacheExpired]
    | ok k =>
      cases cacheD with
      | none => simp [topKDiscordsHandler, respCacheExpired]
      | some mp =>
        simp only [topKDiscordsHandler]
        cases hE : engD mp k (mp.M / 2) with
        | error e => simp [respCacheExpired]
        | ok discords =>
          cases hB : mapExcept (fun didx => znorm (extractWindow mp.A didx mp.M)) discords with
          | error e => simp [respCacheExpired, hB]
          | ok series => simp [respCacheExpired, hB]
  · cases bindName with
    | error e => simp [getMPHandler, respCacheExpired]
    | ok avname =>
      cases cacheG with
      | none => simp [getMPHandler, respCacheExpired]
      | some mp =>
        simp only [getMPHandler]
        cases hN : resolveAVName avname with
        | none => simp [respCacheExpired]
        | some kind =>
          cases hG : gav { mp with AV := kind } with
          | error e => simp [respCacheExpired, hG]
          | ok av =>
            cases hA : aav { mp with AV := kind } av with
            | error e => simp [respCacheExpired, hG, hA]
            | ok adjustedMP => simp [respCacheExpired, hG, hA]

/-- C1 witness: with well-formed parameters and an absent artifact, the motif
handler's envelope carries `cache_expired = true`. -/
theorem cacheExpired_iff_parsed_and_absent_witness :
    respCacheExpired (topKMotifsHandler (motifEngineConst []) znormId
      (.ok 3) (.ok 1) none) = true :=
  (cacheExpired_iff_parsed_and_absent (motifEngineConst []) (discordEngineConst [])
      znormId (gavConst []) (aavConst []) (encSizeConst 0) 0
      (.ok 3) (.ok 3) (.ok 1) (.ok "") none none none).1.mpr
    ⟨⟨3, rfl⟩, ⟨1, rfl⟩, rfl⟩

/-- C1 counterexample: a request whose `k` fails to parse while the artifact
is absent is answered with `cache_expired = false`, so "the failure envelope
carries `cache_expired = true` if and only if the cached artifact is absent"
is false at this input. -/
theorem cacheExpired_iff_absent_counterexample :
    ¬ ∀ e : RespError,
        topKMotifsHandler (motifEngineConst []) znormId
            (.error "bad k") (.ok 1) none = .error e →
          (e.CacheExpired = true ↔ (none : Option MatrixProfile) = none) := by
  intro h
  simpa using h ⟨"bad k", false⟩ rfl

/-- C2 (amended): when every compute step succeeds but the artifact's
serialized size exceeds the configured maximum, the cache write is rejected
and the prior cached artifact is left untouched — but the compute call does
not fail: the source discards `session.Save()`'s error and returns the CAC
success payload. -/
theorem oversize_write_rejected_but_success
    (stomp : MatrixProfile → Except String MatrixProfile)
    (segment : MatrixProfile → List ℚ)
    (encSize : MatrixProfile → ℕ) (maxSize : ℕ)
    (m : ℤ) (data : List ℚ) (cache : Option MatrixProfile)
    (mp0 mp1 : MatrixProfile)
    (hnew : mpNew data m = .ok mp0)
    (hstomp : stomp mp0 = .ok mp1)
    (hsize : maxSize < encSize mp1) :
    calculateMPHandler stomp segment encSize maxSize (.ok m) (.ok data) cache
      = (.ok ⟨segment mp1⟩, cache) := by
  unfold calculateMPHandler
  simp [hnew, hstomp, sessionPut, hsize]

/-- C2 amended witness: a concrete oversize compute returns the CAC payload
and leaves the prior artifact in place. -/
theorem oversize_write_rejected_but_success_witness :
    calculateMPHandler stompId segmentMP (encSizeConst 10) 5
        (.ok 2) (.ok [0, 1, 2, 3]) (some mpW)
      = (.ok ⟨segmentMP mpC2⟩, some mpW) :=
  oversize_write_rejected_but_success stompId segmentMP (encSizeConst 10) 5
    2 [0, 1, 2, 3] (some mpW) mpC2 mpC2 rfl rfl (by decide)

/-- C2 counterexample: at a concrete input whose artifact exceeds the maximum
cache size (`encSize = 10 > maxSize = 5`), the compute call succeeds (returns
the `cac` payload, not a `CacheWriteRejected` error), refuting "the compute
call fails with a CacheWriteRejected error". -/
theorem oversize_compute_fails_counterexample :
    (calculateMPHandler stompId segmentMP (encSizeConst 10) 5
        (.ok 2) (.ok [0, 1, 2, 3]) (some mpW))
      = (.ok ⟨[]⟩, some mpW) ∧
    5 < encSizeConst 10 mpC2 := by
  constructor
  · rfl
  · decide

/-- C3: for every compute request whose `windowLength` is not a positive
integer strictly less than the series length, `calculateMP` fails with the
invalid-parameter error and the engine is not run (the outcome is the same
for every `stomp`/`segment`), leaving the cache untouched. -/
theorem invalid_window_rejected
    (stomp : MatrixProfile → Except String MatrixProfile)
    (segment : MatrixProfile → List ℚ)
    (encSize : MatrixProfile → ℕ) (maxSize : ℕ)
    (m : ℤ) (data : List ℚ) (cache : Option MatrixProfile)
    (hm : ¬ (0 < m ∧ m < (data.length : ℤ))) :
    calculateMPHandler stomp segment encSize maxSize (.ok m) (.ok data) cache
      = (.error ⟨"invalid window length", false⟩, cache) := by
  unfold calculateMPHandler mpNew
  simp [hm]

/-- C3 witness: `m = 0` on a length-2 series is rejected with the
invalid-parameter error for any engine. -/
theorem invalid_window_rejected_witness :
    calculateMPHandler stompId segmentMP (encSizeConst 0) 5
        (.ok 0) (.ok [1, 2]) (some mpW)
      = (.error ⟨"invalid window length", false⟩, some mpW) :=
  invalid_window_rejected stompId segmentMP (encSizeConst 0) 5 0 [1, 2]
    (some mpW) (by decide)

/-- C4: `setAnnotationVector` with a name outside the fixed enumerated set
fails with the invalid-parameter envelope (`cache_expired = false`) and the
session store is not written: the previously cached artifact, its annotation
vector included, is unchanged. -/
theorem unrecognized_av_name_rejected
    (gav : MatrixProfile → Except String (List ℚ))
    (aav : MatrixProfile → List ℚ → Except String (List ℚ))
    (encSize : MatrixProfile → ℕ) (maxSize : ℕ)
    (name : String) (mp : MatrixProfile)
    (hname : resolveAVName name = none) :
    getMPHandler gav aav encSize maxSize (.ok name) (some mp)
      = (.error ⟨"invalid annotation vector name " ++ name, false⟩, some mp) := by
  unfold getMPHandler
  simp [hname]

/-- C4 witness: `name = "unknown"` is rejected and the cached artifact is
left unchanged. -/
theorem unrecognized_av_name_rejected_witness :
    getMPHandler (gavConst []) (aavConst []) (encSizeConst 0) 5
        (.ok "unknown") (some mpW)
      = (.error ⟨"invalid annotation vector name " ++ "unknown", false⟩, some mpW) :=
  unrecognized_av_name_rejected (gavConst []) (aavConst []) (encSizeConst 0) 5
    "unknown" mpW (by decide)

/-- C9: `getMP` treats the empty-string name exactly like `"default"`: the
switch resolves `""` to the default annotation-vector kind and the whole
request behaves identically to a `"default"` request (same response, same
cache state), rather than rejecting the empty name. -/
theorem empty_name_is_default :
    resolveAVName "" = some AVKind.default ∧
    resolveAVName "default" = some AVKind.default ∧
    ∀ (gav : MatrixProfile → Except String (List ℚ))
      (aav : MatrixProfile → List ℚ → Except String (List ℚ))
      (encSize : MatrixProfile → ℕ) (maxSize : ℕ)
      (cache : Option MatrixProfile),
      getMPHandler gav aav encSize maxSize (.ok "") cache
        = getMPHandler gav aav encSize maxSize (.ok "default") cache := by
  refine ⟨rfl, rfl, ?_⟩
  intro gav aav encSize maxSize cache
  cases cache with
  | none => rfl
  | some mp => rfl

/-- On the recognized-name path, `getMP`'s response is determined by
`GetAV`/`ApplyAV` on the updated artifact and does not depend on the
session-save outcome. -/
theorem getMPHandler_fst
    (gav : MatrixProfile → Except String (List ℚ))
    (aav : MatrixProfile → List ℚ → Except String (List ℚ))
    (encSize : MatrixProfile → ℕ) (maxSize : ℕ)
    (name : String) (kind : AVKind) (mp : MatrixProfile)
    (hname : resolveAVName name = some kind) :
    (getMPHandler gav aav encSize maxSize (.ok name) (some mp)).1
      = (match gav { mp with AV := kind } with
        | .error e => .error ⟨e, false⟩
        | .ok av =>
          match aav { mp with AV := kind } av with
          | .error e => .error ⟨e, false⟩
          | .ok adjustedMP => .ok ⟨av, adjustedMP⟩) := by
  unfold getMPHandler
  simp only [hname]
  cases hG : gav { mp with AV := kind } with
  | error e => simp [hG]
  | ok av =>
    cases hA : aav { mp with AV := kind } av with
    | error e => simp [hG, hA]
    | ok adjustedMP => simp [hG, hA]

/-- On the recognized-name path, the cache state after `getMP` is exactly the
session-save result of the updated artifact, whatever `GetAV`/`ApplyAV`
return. -/
theorem getMPHandler_snd
    (gav : MatrixProfile → Except String (List ℚ))
    (aav : MatrixProfile → List ℚ → Except String (List ℚ))
    (encSize : MatrixProfile → ℕ) (maxSize : ℕ)
    (name : String) (kind : AVKind) (mp : MatrixProfile)
    (hname : resolveAVName name = some kind) :
    (getMPHandler gav aav encSize maxSize (.ok name) (some mp)).2
      = (sessionPut encSize maxSize (some mp) { mp with AV := kind }).1 := by
  unfold getMPHandler
  simp only [hname]
  cases hG : gav { mp with AV := kind } with
  | error e => simp [hG]
  | ok av =>
    cases hA : aav { mp with AV := kind } av with
    | error e => simp [hG, hA]
    | ok adjustedMP => simp [hG, hA]

/-- C7: for a session holding a cached artifact and a supported
annotation-vector name, invoking `setAnnotationVector` twice with the same
name gives the same outcome both times — same response (hence the same
`adjusted_mp`) and same cache state. -/
theorem setAnnotationVector_idempotent
    (gav : MatrixProfile → Except String (List ℚ))
    (aav : MatrixProfile → List ℚ → Except String (List ℚ))
    (encSize : MatrixProfile → ℕ) (maxSize : ℕ)
    (name : String) (kind : AVKind) (mp : MatrixProfile)
    (hname : resolveAVName name = some kind) :
    getMPHandler gav aav encSize maxSize (.ok name)
        (getMPHandler gav aav encSize maxSize (.ok name) (some mp)).2
      = getMPHandler gav aav encSize maxSize (.ok name) (some mp) := by
  have hAA : ({ { mp with AV := kind } with AV := kind } : MatrixProfile)
      = { mp with AV := kind } := rfl
  rw [getMPHandler_snd gav aav encSize maxSize name kind mp hname]
  by_cases hsz : encSize { mp with AV := kind } > maxSize
  · simp only [sessionPut, if_pos hsz]
  · have hput : (sessionPut encSize maxSize (some mp) { mp with AV := kind }).1
        = some { mp with AV := kind } := by
      simp [sessionPut, hsz]
    rw [hput]
    apply Prod.ext
    · rw [getMPHandler_fst gav aav encSize maxSize name kind
          { mp with AV := kind } hname,
        getMPHandler_fst gav aav encSize maxSize name kind mp hname]
    · rw [getMPHandler_snd gav aav encSize maxSize name kind
          { mp with AV := kind } hname,
        getMPHandler_snd gav aav encSize maxSize name kind mp hname]
      rw [hAA]
      simp [sessionPut, hsz]

/-- C7 witness: two successive `"complexity"` requests on a cached artifact
coincide. -/
theorem setAnnotationVector_idempotent_witness :
    getMPHandler (gavConst [1]) (aavConst [2]) (encSizeConst 1) 5 (.ok "complexity")
        (getMPHandler (gavConst [1]) (aavConst [2]) (encSizeConst 1) 5
          (.ok "complexity") (some mpW)).2
      = getMPHandler (gavConst [1]) (aavConst [2]) (encSizeConst 1) 5
          (.ok "complexity") (some mpW) :=
  setAnnotationVector_idempotent (gavConst [1]) (aavConst [2]) (encSizeConst 1) 5
    "complexity" AVKind.complexity mpW rfl

/-- C8: on a recognized name, `getMP` persists the artifact with the new
annotation vector (session save succeeding when it fits the size bound)
before `GetAV`/`ApplyAV` run; so when `GetAV` or `ApplyAV` fails, the handler
returns an error response while the cache already holds the mutated
artifact — the error path does not leave the stored state unchanged. -/
theorem av_persisted_before_engine
    (gav : MatrixProfile → Except String (List ℚ))
    (aav : MatrixProfile → List ℚ → Except String (List ℚ))
    (encSize : MatrixProfile → ℕ) (maxSize : ℕ)
    (name : String) (kind : AVKind) (mp : MatrixProfile)
    (hname : resolveAVName name = some kind)
    (hsize : encSize { mp with AV := kind } ≤ maxSize) :
    (∀ e, gav { mp with AV := kind } = .error e →
      getMPHandler gav aav encSize maxSize (.ok name) (some mp)
        = (.error ⟨e, false⟩, some { mp with AV := kind })) ∧
    (∀ av e, gav { mp with AV := kind } = .ok av →
      aav { mp with AV := kind } av = .error e →
      getMPHandler gav aav encSize maxSize (.ok name) (some mp)
        = (.error ⟨e, false⟩, some { mp with AV := kind })) := by
  have hsz : ¬ encSize { mp with AV := kind } > maxSize := by omega
  have hput : (sessionPut encSize maxSize (some mp) { mp with AV := kind }).1
      = some { mp with AV := kind } := by
    simp [sessionPut, hsz]
  constructor
  · intro e hG
    unfold getMPHandler
    simp [hname, hG, hput]
  · intro av e hG hA
    unfold getMPHandler
    simp [hname, hG, hA, hput]

/-- C8 witness: with a failing `GetAV`, the response is an error while the
cache already holds the artifact with the new annotation vector. -/
theorem av_persisted_before_engine_witness :
    getMPHandler (gavErr "boom") (aavConst []) (encSizeConst 1) 5
        (.ok "clipping") (some mpW)
      = (.error ⟨"boom", false⟩, some { mpW with AV := AVKind.clipping }) :=
  (av_persisted_before_engine (gavErr "boom") (aavConst []) (encSizeConst 1) 5
      "clipping" AVKind.clipping mpW rfl (by decide)).1 "boom" rfl

/-- A successful `mapExcept` pairs each output with its input: the outputs
are exactly the successful images of the inputs, in order. -/
theorem mapExcept_ok_forall2 {α β : Type} (f : α → Except String β) :
    ∀ (xs : List α) (ys : List β), mapExcept f xs = .ok ys →
      List.Forall₂ (fun y x => f x = .ok y) ys xs := by
  intro xs
  induction xs with
  | nil =>
    intro ys h
    simp only [mapExcept] at h
    injection h with h2
    subst h2
    exact List.Forall₂.nil
  | cons x xs ih =>
    intro ys h
    simp only [mapExcept] at h
    revert h
    cases hx : f x with
    | error e => intro h; simp at h
    | ok y =>
      cases hr : mapExcept f xs with
      | error e => intro h; simp at h
      | ok ys1 =>
        intro h
        injection h with h2
        subst h2
        exact List.Forall₂.cons hx (ih ys1 hr)

/-- C5: whenever a motif or discord request succeeds, the response's series
are, group by group and index by index, exactly the z-normalizations of the
windows extracted from the artifact's underlying series `A` at the returned
indices (`A[idx : idx+M]`, of length exactly `M` for in-range indices) — and
any single normalization failure aborts the whole response (a success output
normalizes every window, so no partial result is ever returned). -/
theorem series_normalized_all_or_nothing :
    (∀ (engine : MatrixProfile → ℤ → ℚ → Except String (List MotifGroup))
       (znorm : List ℚ → Except String (List ℚ))
       (kq : Except String ℤ) (rq : Except String ℚ)
       (mp : MatrixProfile) (motif : Motif),
      topKMotifsHandler engine znorm kq rq (some mp) = .ok motif →
      List.Forall₂ (fun s g =>
          List.Forall₂ (fun entry idx =>
            znorm (extractWindow mp.A idx mp.M) = .ok entry) s g.Idx)
        motif.Series motif.Groups) ∧
    (∀ (engine : MatrixProfile → ℤ → ℕ → Except String (List ℕ))
       (znorm : List ℚ → Except String (List ℚ))
       (kq : Except String ℤ)
       (mp : MatrixProfile) (discord : Discord),
      topKDiscordsHandler engine znorm kq (some mp) = .ok discord →
      List.Forall₂ (fun entry idx =>
          znorm (extractWindow mp.A idx mp.M) = .ok entry)
        discord.Series discord.Groups) ∧
    (∀ (a : List ℚ) (idx m : ℕ), idx + m ≤ a.length →
      (extractWindow a idx m).length = m) := by
  refine ⟨?_, ?_, ?_⟩
  · intro engine znorm kq rq mp motif h
    cases kq with
    | error e => simp [topKMotifsHandler] at h
    | ok k =>
      cases rq with
      | error e => simp [topKMotifsHandler] at h
      | ok r =>
        simp only [topKMotifsHandler] at h
        revert h
        cases hE : engine mp k r with
        | error e => intro h; simp at h
        | ok motifGroups =>
          intro h
          dsimp only at h
          revert h
          cases hB : mapExcept
              (fun (g : MotifGroup) =>
                mapExcept (fun midx => znorm (extractWindow mp.A midx mp.M)) g.Idx)
              motifGroups with
          | error e => intro h; simp at h
          | ok series =>
            intro h
            injection h with h2
            subst h2
            exact (mapExcept_ok_forall2 _ motifGroups series hB).imp
              (fun {s : List (List ℚ)} {g : MotifGroup} hsg =>
                mapExcept_ok_forall2 _ g.Idx s hsg)
  · intro engine znorm kq mp discord h
    cases kq with
    | error e => simp [topKDiscordsHandler] at h
    | ok k =>
      simp only [topKDiscordsHandler] at h
      revert h
      cases hE : engine mp k (mp.M / 2) with
      | error e => intro h; simp at h
      | ok discords =>
        intro h
        dsimp only at h
        revert h
        cases hB : mapExcept (fun didx => znorm (extractWindow mp.A didx mp.M)) discords with
        | error e => intro h; simp at h
        | ok series =>
          intro h
          injection h with h2
          subst h2
          exact mapExcept_ok_forall2 _ discords series hB
  · intro a idx m h
    simp only [extractWindow, List.length_take, List.length_drop]
    omega

/-- C5 witness: a concrete successful motif request whose series entries are
the normalizer's outputs on the extracted windows. -/
theorem series_normalized_all_or_nothing_witness :
    List.Forall₂ (fun s g =>
        List.Forall₂ (fun entry idx =>
          znormId (extractWindow mpW.A idx mpW.M) = .ok entry) s g.Idx)
      ([[[1, 2], [3, 4]]] : List (List (List ℚ)))
      ([⟨0, [1, 3]⟩] : List MotifGroup) :=
  series_normalized_all_or_nothing.1 (motifEngineConst [⟨0, [1, 3]⟩]) znormId
    (.ok 2) (.ok 3) mpW ⟨[⟨0, [1, 3]⟩], [[[1, 2], [3, 4]]]⟩ rfl

/-- First component of the entry with the maximal second component: the
greedy argmax step of the spec-modelled discord search. -/
def selectMaxEntry : List (ℕ × ℚ) → Option (ℕ × ℚ)
  | [] => none
  | c :: cs =>
    match selectMaxEntry cs with
    | none => some c
    | some best => if best.2 > c.2 then some best else some c

theorem selectMaxEntry_mem :
    ∀ (l : List (ℕ × ℚ)) (c : ℕ × ℚ), selectMaxEntry l = some c → c ∈ l := by
  intro l
  induction l with
  | nil => intro c h; simp [selectMaxEntry] at h
  | cons x xs ih =>
    intro c h
    simp only [selectMaxEntry] at h
    revert h
    cases hs : selectMaxEntry xs with
    | none =>
      intro h
      injection h with h2
      subst h2
      exact List.mem_cons_self x xs
    | some best =>
      dsimp only
      by_cases hb : best.2 > x.2
      · rw [if_pos hb]
        intro h
        injection h with h2
        subst h2
        exact List.mem_cons_of_mem x (ih best hs)
      · rw [if_neg hb]
        intro h
        injection h with h2
        subst h2
        exact List.mem_cons_self x xs

/-- Modelled from the spec: the selection loop of the external `TopKDiscords`
— repeatedly take the index with the highest remaining profile value, and
exclude every index lying within `ez` positions of a chosen index from later
selection (the spec's "internal exclusion-zone parameter … preventing
trivially overlapping discords from being reported as distinct"). -/
def discordGo (ez : ℕ) : ℕ → List (ℕ × ℚ) → List ℕ
  | 0, _ => []
  | k + 1, cands =>
    match selectMaxEntry cands with
    | none => []
    | some c =>
      c.1 :: discordGo ez k (cands.filter (fun d => decide (ez < Nat.dist d.1 c.1)))

theorem discordGo_mem (ez : ℕ) :
    ∀ (k : ℕ) (cands : List (ℕ × ℚ)) (x : ℕ), x ∈ discordGo ez k cands →
      ∃ p ∈ cands, p.1 = x := by
  intro k
  induction k with
  | zero => intro cands x h; simp [discordGo] at h
  | succ k ih =>
    intro cands x h
    simp only [discordGo] at h
    revert h
    cases hs : selectMaxEntry cands with
    | none => intro h; simp at h
    | some c =>
      intro h
      rcases List.mem_cons.mp h with h1 | h2
      · exact ⟨c, selectMaxEntry_mem cands c hs, h1.symm⟩
      · obtain ⟨p, hp, hpx⟩ := ih _ x h2
        exact ⟨p, (List.mem_filter.mp hp).1, hpx⟩

/-- The spec-modelled discord selection never returns two indices within `ez`
positions of each other. -/
theorem discordGo_pairwise (ez : ℕ) :
    ∀ (k : ℕ) (cands : List (ℕ × ℚ)),
      (discordGo ez k cands).Pairwise (fun i j => ez < Nat.dist i j) := by
  intro k
  induction k with
  | zero => intro cands; simp [discordGo]
  | succ k ih =>
    intro cands
    simp only [discordGo]
    cases hs : selectMaxEntry cands with
    | none => exact List.Pairwise.nil
    | some c =>
      refine List.Pairwise.cons ?_ (ih _)
      intro y hy
      obtain ⟨p, hp, hpx⟩ := discordGo_mem ez k _ y hy
      have h2 : ez < Nat.dist p.1 c.1 := by
        have := (List.mem_filter.mp hp).2
        simpa using this
      rw [Nat.dist_comm]
      rw [hpx] at h2
      exact h2

/-- Modelled from the spec: the external `mp.TopKDiscords(k, exclusionZone)`
engine call — greedy top-k selection over the profile values with the given
exclusion zone. -/
def topKDiscordsEngine (mp : MatrixProfile) (k : ℤ) (exclusionZone : ℕ) :
    Except String (List ℕ) :=
  .ok (discordGo exclusionZone k.toNat mp.MP.enum)

/-- C6: the discord handler invokes the discord search with the exclusion
zone fixed to `mp.M / 2`, so on success no two reported discord indices lie
within `M/2` positions of each other. -/
theorem discord_halfwindow_separation
    (znorm : List ℚ → Except String (List ℚ))
    (kq : Except String ℤ) (mp : MatrixProfile) (discord : Discord)
    (h : topKDiscordsHandler topKDiscordsEngine znorm kq (some mp) = .ok discord) :
    discord.Groups.Pairwise (fun i j => mp.M / 2 < Nat.dist i j) := by
  cases kq with
  | error e => simp [topKDiscordsHandler] at h
  | ok k =>
    simp only [topKDiscordsHandler, topKDiscordsEngine] at h
    revert h
    cases hB : mapExcept (fun didx => znorm (extractWindow mp.A didx mp.M))
        (discordGo (mp.M / 2) k.toNat mp.MP.enum) with
    | error e => intro h; simp at h
    | ok series =>
      intro h
      injection h with h2
      subst h2
      exact discordGo_pairwise _ _ _

/-- C6 witness: `k = 2` on the concrete artifact (window `M = 2`, exclusion
zone 1) returns indices 1 and 3, which are more than `M/2` apart. -/
theorem discord_halfwindow_separation_witness :
    ([1, 3] : List ℕ).Pairwise (fun i j => mpW.M / 2 < Nat.dist i j) :=
  discord_halfwindow_separation znormId (.ok 2) mpW ⟨[1, 3], [[1, 2], [3, 4]]⟩ rfl

/-- C10: `smooth` is total and length-preserving; each averaging window is
clipped to the slice bounds (so the extracted window really has `e - s`
elements, none out of range) and the divisor `e - s` is at least 1 for every
element of a non-empty input. -/
theorem smooth_total_clipped (data : List ℚ) (m : ℕ) (i : ℕ)
    (h : i < data.length) :
    (smooth data m).length = data.length ∧
    min (i + m / 2 + 1) data.length ≤ data.length ∧
    i - m / 2 < min (i + m / 2 + 1) data.length ∧
    ((data.drop (i - m / 2)).take
        (min (i + m / 2 + 1) data.length - (i - m / 2))).length
      = min (i + m / 2 + 1) data.length - (i - m / 2) ∧
    1 ≤ min (i + m / 2 + 1) data.length - (i - m / 2) ∧
    (smooth data m).getD i 0
      = ((data.drop (i - m / 2)).take
          (min (i + m / 2 + 1) data.length - (i - m / 2))).sum
        / ((min (i + m / 2 + 1) data.length - (i - m / 2) : ℕ) : ℚ) := by
  have hs : i - m / 2 ≤ i := Nat.sub_le _ _
  have he : i < min (i + m / 2 + 1) data.length := by omega
  have hlen : (smooth data m).length = data.length := by
    simp [smooth]
  refine ⟨hlen, by omega, by omega, ?_, by omega, ?_⟩
  · rw [List.length_take, List.length_drop]
    omega
  · have hi : i < (smooth data m).length := by rw [hlen]; exact h
    rw [List.getD_eq_getElem _ _ hi]
    simp [smooth]

/-- Witness for C10 at `data = [1, 2, 3]`, `m = 2`, `i = 1`. -/
theorem smooth_total_clipped_witness :
    (smooth [(1 : ℚ), 2, 3] 2).length = ([(1 : ℚ), 2, 3] : List ℚ).length ∧
    min (1 + 2 / 2 + 1) ([(1 : ℚ), 2, 3] : List ℚ).length
      ≤ ([(1 : ℚ), 2, 3] : List ℚ).length ∧
    1 - 2 / 2 < min (1 + 2 / 2 + 1) ([(1 : ℚ), 2, 3] : List ℚ).length ∧
    ((([(1 : ℚ), 2, 3] : List ℚ).drop (1 - 2 / 2)).take
        (min (1 + 2 / 2 + 1) ([(1 : ℚ), 2, 3] : List ℚ).length - (1 - 2 / 2))).length
      = min (1 + 2 / 2 + 1) ([(1 : ℚ), 2, 3] : List ℚ).length - (1 - 2 / 2) ∧
    1 ≤ min (1 + 2 / 2 + 1) ([(1 : ℚ), 2, 3] : List ℚ).length - (1 - 2 / 2) ∧
    (smooth [(1 : ℚ), 2, 3] 2).getD 1 0
      = ((([(1 : ℚ), 2, 3] : List ℚ).drop (1 - 2 / 2)).take
          (min (1 + 2 / 2 + 1) ([(1 : ℚ), 2, 3] : List ℚ).length - (1 - 2 / 2))).sum
        / ((min (1 + 2 / 2 + 1) ([(1 : ℚ), 2, 3] : List ℚ).length - (1 - 2 / 2) : ℕ) : ℚ) :=
  smooth_total_clipped [(1 : ℚ), 2, 3] 2 1 (by norm_num)

end MPServer
